import Mathlib

/-!
Verification development for `sevagh/slicqt`, file `nsgt_torch/cq.py`.

The file `cq.py` defines the `NSGT` transform wrapper (construction checks,
band-slice bookkeeping, `ncoefs` / `fbins_actual` computation, the
matrix-form override of `M`, device migration `_apply`) and the `NSGTBase`
configuration class (scale-name resolution, matrix-form validation,
`max_bins`).  The numerical kernels it imports (`nsgfwin`, `nsdual`,
`nsgtf`, `nsigtf`, `calcwinrange`, the scale registry `SCALES_BY_NAME` and
`ALLOWED_MATRIX_FORMS`) live in sibling modules that are not part of the
source under verification; where a statement depends on them they are
modelled from the specification, and each such definition says so in its
doc comment.
-/

/-- Python exception kinds relevant to `cq.py`: `assert` failures,
`ValueError`, attribute lookup failures and unbound-name references. -/
inductive PyError where
  | assertionError : PyError
  | valueError : String → PyError
  | attributeError : String → PyError
  | nameError : String → PyError
deriving DecidableEq, Repr

/-- Post-construction data of an `NSGT` instance (cq.py lines 14-51):
`n` is the number of bands (`len(self.g) = len(self.M)` as returned by
`nsgfwin`), `glen k` is `len(self.g[k])`, `M k` is `self.M[k]` before the
matrix-form override, and the three flags are the constructor arguments. -/
structure NSGTParams where
  n : ℕ
  glen : ℕ → ℕ
  M : ℕ → ℕ
  real : Bool
  reducedform : ℕ
  matrixform : Bool

/-- Start of the active band slice `sl` (cq.py lines 35-39): `reducedform`
in real mode, `0` in complex mode. -/
def sliceStart (p : NSGTParams) : ℕ :=
  if p.real then p.reducedform else 0

/-- Stop of the active band slice `sl` (cq.py lines 35-39):
`len(self.g)//2 + 1 - reducedform` in real mode; in complex mode the slice
is `slice(0, None)`, i.e. the whole band list, so the stop is `n`. -/
def sliceStop (p : NSGTParams) : ℕ :=
  if p.real then p.n / 2 + 1 - p.reducedform else p.n

/-- Value of `self.fbins_actual = sl.stop` (cq.py line 41).  In complex
mode `sl = slice(0, None)` has `stop = None`, modelled as `none`. -/
def fbins_actual (p : NSGTParams) : Option ℕ :=
  if p.real then some (sliceStop p) else none

/-- Index set of the active band slice `sl` applied to `self.g` / `self.M`. -/
def activeSet (p : NSGTParams) : Finset ℕ :=
  Finset.Ico (sliceStart p) (sliceStop p)

/-- Python `int(ceil(float(a)/b)) = (a + b - 1) / b` for `b > 0` (exact
integer ceiling division; the float detour in cq.py line 44 is exact for
the magnitudes involved). -/
def pyCeilDiv (a b : ℕ) : ℕ :=
  (a + b - 1) / b

/-- One generator term of cq.py line 44:
`int(ceil(float(len(gii))/mii))*mii` for band `k`. -/
def bandCoefLen (p : NSGTParams) (k : ℕ) : ℕ :=
  pyCeilDiv (p.glen k) (p.M k) * p.M k

/-- Value of `self.ncoefs` (cq.py line 44): the maximum of `bandCoefLen`
over the active slice.  Python `max` over a non-empty collection of
naturals coincides with `Finset.sup`. -/
def ncoefs (p : NSGTParams) : ℕ :=
  (activeSet p).sup (bandCoefLen p)

/-- The `slice_coefs` property (cq.py lines 81-83) simply returns
`self.ncoefs`. -/
def slice_coefs (p : NSGTParams) : ℕ :=
  ncoefs p

/-- Per-band coefficient lengths actually used after construction
(cq.py lines 46-51): when `matrixform` is set, every entry of `self.M` is
overwritten with `rm.max()` over `M[reducedform : len(M)//2+1-reducedform]`
if `reducedform` is truthy, else with `self.M.max()` over all bands;
otherwise `M` is unchanged. -/
def newM (p : NSGTParams) : ℕ → ℕ :=
  if p.matrixform then
    (if p.reducedform ≠ 0 then
      fun _ => (Finset.Ico p.reducedform (p.n / 2 + 1 - p.reducedform)).sup p.M
     else
      fun _ => (Finset.range p.n).sup p.M)
  else p.M

/-- Modelled from the spec: `nsgtf` is not under `src/`; per spec section
4.4 the ragged forward transform emits one coefficient tensor per band of
the active (possibly reduced, possibly real-only) band set, so the ragged
band count is the cardinality of that set. -/
def raggedBandCount (p : NSGTParams) : ℕ :=
  (activeSet p).card

/-- The spec formula for the common coefficient length:
`max_k(ceil(len(g[k])/M[k]) * M[k])` over the active slice, with a true
real-number ceiling. -/
def specNcoefs (p : NSGTParams) : ℕ :=
  (activeSet p).sup (fun k => (Int.ceil ((p.glen k : ℚ) / (p.M k : ℚ))).toNat * p.M k)

/-- The three `assert` statements opening `NSGT.__init__` (cq.py lines
15-17), in source order: `fs > 0`, `Ls > 0`, `0 <= reducedform <= 2`. -/
def nsgtAsserts (fs : ℚ) (Ls : ℤ) (reducedform : ℤ) : Except PyError Unit :=
  if 0 < fs then
    if 0 < Ls then
      if 0 ≤ reducedform ∧ reducedform ≤ 2 then Except.ok ()
      else Except.error PyError.assertionError
    else Except.error PyError.assertionError
  else Except.error PyError.assertionError

/-- Constructor of `NSGT` (cq.py lines 14-51): the asserts run before any
transform state is built; only when they pass is the parameter record
produced. -/
def nsgtInit (fs : ℚ) (Ls : ℤ) (real matrixform : Bool) (reducedform : ℤ)
    (glen M : ℕ → ℕ) (n : ℕ) : Except PyError NSGTParams :=
  match nsgtAsserts fs Ls reducedform with
  | Except.error e => Except.error e
  | Except.ok _ =>
      Except.ok { n := n, glen := glen, M := M, real := real,
                  reducedform := reducedform.toNat, matrixform := matrixform }

/-- Modelled from the spec: `ALLOWED_MATRIX_FORMS` is defined in the
absent module `interpolation.py`; per spec sections 4.6 and the uses in
cq.py it comprises the ragged and zero-padded forms plus the
interpolation resampling modes. -/
def ALLOWED_MATRIX_FORMS : List String :=
  ["ragged", "zeropad", "nearest", "linear"]

/-- Class-level attribute names of `NSGTBase` as defined in cq.py
(methods of the class body).  The name `allowed_matrix_forms`, referenced
by the error message on line 156, is not among them and is set nowhere
else in the file. -/
def nsgtbaseClassAttrNames : List String :=
  ["__init__", "max_bins", "_apply"]

/-- Matrix-form validation in `NSGTBase.__init__` (cq.py lines 155-157).
Raising the intended `ValueError` requires first evaluating its f-string
message, which reads `NSGTBase.allowed_matrix_forms`; since that class
attribute does not exist, the lookup itself raises `AttributeError`. -/
def nsgtbaseMatrixformCheck (m : String) : Except PyError Unit :=
  if m ∈ ALLOWED_MATRIX_FORMS then Except.ok ()
  else if "allowed_matrix_forms" ∈ nsgtbaseClassAttrNames then
    Except.error (PyError.valueError
      (m ++ " is not one of the allowed values: allowed_matrix_forms"))
  else Except.error (PyError.attributeError "allowed_matrix_forms")

/-- Modelled from the spec: the registry `SCALES_BY_NAME` lives in the
absent module `fscale.py`; per the spec it is a fixed mapping of
scale-family names (log/constant-Q, variable-Q, mel, bark) to
constructors, and cq.py lines 142-146 show `cqlog` and `vqlog` are valid
names while `oct` is not. -/
def SCALES_BY_NAME : List String :=
  ["cqlog", "vqlog", "mel", "bark"]

/-- Error message built by `NSGTBase.__init__` for an unknown scale name
(cq.py lines 141-143): the base message names the scale, and for the
historical name `oct` a hint toward `cqlog` is appended. -/
def scaleErrMsg (scale : String) : String :=
  "unsupported frequency scale " ++
    (scale ++ (if scale = "oct" then "\n\tuse `cqlog` instead of `oct`" else ""))

/-- Scale-name resolution in `NSGTBase.__init__` (cq.py lines 138-144):
a `KeyError` on the registry lookup is turned into a `ValueError` whose
message is `scaleErrMsg`. -/
def resolveScale (scale : String) : Except PyError Unit :=
  if scale ∈ SCALES_BY_NAME then Except.ok ()
  else Except.error (PyError.valueError (scaleErrMsg scale))

/-- Module-level global names bound in cq.py (imports on lines 1-10 plus
the classes and the function defined in the file).  The name `np` is not
among them: `numpy` is never imported. -/
def cqModuleGlobalNames : List String :=
  ["nsgfwin", "nsdual", "nsgtf", "nsigtf", "calcwinrange",
   "complex_2_magphase", "magphase_2_complex", "OctScale", "SCALES_BY_NAME",
   "ceil", "torch", "Tensor", "ALLOWED_MATRIX_FORMS", "interpolate",
   "deinterpolate", "NSGT", "CQ_NSGT", "make_nsgt_filterbanks", "NSGTBase",
   "TorchNSGT", "TorchINSGT"]

/-- The method `NSGTBase.max_bins` (cq.py lines 170-175): `None` input
returns `None` immediately; otherwise the body reaches `np.argwhere`,
whose name lookup for `np` fails, raising `NameError` (the `Except.ok`
branch under the lookup is unreachable). -/
def max_bins (bandwidth : Option ℚ) : Except PyError (Option ℕ) :=
  match bandwidth with
  | Option.none => Except.ok Option.none
  | Option.some _ =>
      if "np" ∈ cqModuleGlobalNames then Except.ok (Option.some 0)
      else Except.error (PyError.nameError "np")

/-- Device tags of the derived arrays owned by an `NSGT` instance:
the analysis windows `g`, the placements `wins` and the dual windows `gd`
are plain Python lists of tensors, plus the `device` attribute. -/
structure NSGTArrays where
  g : List String
  wins : List String
  gd : List String
  device : String
deriving DecidableEq, Repr

/-- The migration method `NSGT._apply` (cq.py lines 70-75): the call to
`super()._apply(fn)` moves only registered parameters and buffers, and
`g`, `wins`, `gd` are plain list attributes, so it touches none of them;
the body then maps `fn` over `wins` and over `g`, re-reads the device
from `g[0]` and rebuilds the lambdas.  `gd` is never touched. -/
def applyNSGT (fn : String → String) (s : NSGTArrays) : NSGTArrays :=
  { g := s.g.map fn
    wins := s.wins.map fn
    gd := s.gd
    device := (s.g.map fn).headD s.device }

/-- Concrete `NSGTArrays` state with every array on the cpu device. -/
def cpuState : NSGTArrays :=
  { g := ["cpu"], wins := ["cpu"], gd := ["cpu"], device := "cpu" }

/-- Relocation function moving every tensor to the cuda device. -/
def toCuda : String → String :=
  fun _ => "cuda"

/-- Concrete parameter record falsifying the claim that `fbins_actual`
equals the active band count: real mode, `reducedform = 1`, ten bands. -/
def pC2 : NSGTParams :=
  { n := 10, glen := fun _ => 1, M := fun _ => 1,
    real := true, reducedform := 1, matrixform := false }

/-- Concrete parameter record for the reduced-form witness. -/
def pW2 : NSGTParams :=
  { n := 10, glen := fun _ => 4, M := fun _ => 4,
    real := true, reducedform := 2, matrixform := false }

/-- Concrete parameter record falsifying the matrix-form divisibility
claim: complex mode with `reducedform = 1`, four bands with mirror
symmetric `M = [6, 4, 4, 4]` and `len(g[k]) = M[k]` (painless sizing). -/
def pC3 : NSGTParams :=
  { n := 4, glen := fun k => if k = 0 then 6 else 4,
    M := fun k => if k = 0 then 6 else 4,
    real := false, reducedform := 1, matrixform := true }

/-- Concrete parameter record for the matrix-form witness: real mode,
`reducedform = 1`, ten bands, uniform `M`. -/
def pW3 : NSGTParams :=
  { n := 10, glen := fun _ => 3, M := fun _ => 4,
    real := true, reducedform := 1, matrixform := true }

/-- Concrete parameter record for the `ncoefs` formula witness. -/
def pW7 : NSGTParams :=
  { n := 8, glen := fun k => k + 3, M := fun _ => 4,
    real := true, reducedform := 0, matrixform := false }

/-- Concrete complex-mode parameter record for the `fbins_actual` witness. -/
def pW9 : NSGTParams :=
  { n := 8, glen := fun _ => 3, M := fun _ => 4,
    real := false, reducedform := 0, matrixform := false }

/-- Modelled from the spec: the transform kernels `nsgfwin`, `nsdual`,
`nsgtf` and `nsigtf` are not under `src/`.  Following spec sections 3 and
4.2-4.5, a frame configuration consists of the padded frequency-axis
length `nn`, the band count `B`, each band's window support length `L k`
(`len(g[k])`), its real-valued frequency-domain window samples `g k i`,
and its circular placement offset `win k` on the axis of length `nn`.
Both analysis modes are instances of this model: real mode lists the
non-negative-frequency bands together with their mirrored
negative-frequency contributions, complex mode lists all bands, and the
fixed-matrix override changes coefficient lengths but not the windowed
frequency-domain values.  The per-band compact transform (IFFT to
coefficients in `nsgtf`, FFT back in `nsigtf`) is a mutually inverse
bijection applied and immediately undone across the round trip in the
painless (no-truncation) configuration, so the model works with the
frequency-domain values the two cancel between.  Scalars are exact
rationals; the real and imaginary parts of a complex spectrum satisfy the
same identities componentwise since all windows are real-valued. -/
structure NSGTFrame where
  nn : ℕ
  B : ℕ
  L : ℕ → ℕ
  g : ℕ → ℕ → ℚ
  win : ℕ → ℕ

/-- Circular position of sample `i` of band `k` on the padded frequency
axis (spec section 4.2: placement wraps modulo `nn`). -/
def framePos (F : NSGTFrame) (k i : ℕ) : ℕ :=
  (F.win k + i) % F.nn

/-- Diagonal of the frame operator (spec section 4.3): at each position
of the padded axis, the circularly accumulated sum of squared magnitudes
of all window samples landing there. -/
def frameDiag (F : NSGTFrame) (f : ℕ) : ℚ :=
  (Finset.range F.B).sum (fun k =>
    (Finset.range (F.L k)).sum (fun i =>
      if framePos F k i = f then (F.g k i) ^ 2 else 0))

/-- Modelled from the spec: `nsdual` (spec section 4.3) divides each
window pointwise, at its own support positions, by the accumulated
frame-diagonal value there. -/
def nsdual (F : NSGTFrame) (k i : ℕ) : ℚ :=
  F.g k i / frameDiag F (framePos F k i)

/-- Modelled from the spec: the forward engine `nsgtf` (spec section 4.4)
extracts, for band `k`, the spectrum samples overlapping the window's
support (circularly, per the placement) and multiplies them pointwise by
the window; `nsgtf F X k i` is sample `i` of band `k`'s windowed slice,
the frequency-domain content of that band's coefficient sequence. -/
def nsgtf (F : NSGTFrame) (X : ℕ → ℚ) (k i : ℕ) : ℚ :=
  F.g k i * X (framePos F k i)

/-- Modelled from the spec: the inverse engine `nsigtf` (spec section
4.5) multiplies each band's coefficient content pointwise by the supplied
dual window and scatter-adds it circularly into a shared accumulation
buffer of length `nn`; `nsigtf F gd c f` is the accumulated value at
position `f`. -/
def nsigtf (F : NSGTFrame) (gd c : ℕ → ℕ → ℚ) (f : ℕ) : ℚ :=
  (Finset.range F.B).sum (fun k =>
    (Finset.range (F.L k)).sum (fun i =>
      if framePos F k i = f then gd k i * c k i else 0))

/-- Concrete two-band frame covering a padded axis of length 2, each band
a single unit window sample at offsets 0 and 1; its frame diagonal is 1
everywhere. -/
def Fw : NSGTFrame :=
  { nn := 2, B := 2, L := fun _ => 1, g := fun _ _ => 1, win := fun k => k }

/-- Concrete test spectrum for the reconstruction witness. -/
def Xw : ℕ → ℚ :=
  fun f => (f : ℚ) + 1

/-- Sublemma: Python integer ceiling division agrees with the rational
ceiling `ceil(a/b)` for positive `b`. -/
lemma pyCeilDiv_eq_ceil (a b : ℕ) (hb : 0 < b) :
    pyCeilDiv a b = (Int.ceil ((a : ℚ) / (b : ℚ))).toNat := by
  have hbq : (0 : ℚ) < (b : ℚ) := by exact_mod_cast hb
  have hkey : Int.ceil ((a : ℚ) / (b : ℚ)) = (pyCeilDiv a b : ℤ) := by
    rw [Int.ceil_eq_iff]
    constructor
    · rw [lt_div_iff₀ hbq]
      have hA : pyCeilDiv a b * b < a + b := by
        have h1 := Nat.div_mul_le_self (a + b - 1) b
        unfold pyCeilDiv
        omega
      have hAq : (pyCeilDiv a b : ℚ) * b < (a : ℚ) + b := by exact_mod_cast hA
      push_cast
      nlinarith [hAq]
    · rw [div_le_iff₀ hbq]
      have hB : a ≤ pyCeilDiv a b * b := by
        have h2 := Nat.div_add_mod' (a + b - 1) b
        have h3 : (a + b - 1) % b < b := Nat.mod_lt _ hb
        unfold pyCeilDiv
        omega
      exact_mod_cast hB
  rw [hkey, Int.toNat_natCast]

/-- Sublemma: under painless sizing `1 <= len(g[k]) <= M[k]`, the band
term of cq.py line 44 collapses to `M[k]`. -/
lemma bandCoefLen_eq_M (p : NSGTParams) (k : ℕ)
    (h1 : 1 ≤ p.glen k) (h2 : p.glen k ≤ p.M k) :
    bandCoefLen p k = p.M k := by
  have hdiv : pyCeilDiv (p.glen k) (p.M k) = 1 := by
    have hM : 0 < p.M k := lt_of_lt_of_le h1 h2
    have h4 : (p.glen k + p.M k - 1) / p.M k < 2 :=
      (Nat.div_lt_iff_lt_mul hM).mpr (by omega)
    have h5 : 1 ≤ (p.glen k + p.M k - 1) / p.M k :=
      (Nat.le_div_iff_mul_le hM).mpr (by omega)
    unfold pyCeilDiv
    omega
  rw [bandCoefLen, hdiv, one_mul]

/-- Sublemma: for a band-length array that is mirror-symmetric across the
frequency axis, the maximum over all bands equals the maximum over the
non-negative-frequency half `[0, n/2+1)`. -/
lemma sup_range_eq_sup_half (n : ℕ) (M : ℕ → ℕ) (hn : 1 ≤ n)
    (hsym : ∀ k, k < n → n / 2 + 1 ≤ k → M k = M (n - k)) :
    (Finset.range n).sup M = (Finset.Ico 0 (n / 2 + 1)).sup M := by
  apply le_antisymm
  · apply Finset.sup_le
    intro k hk
    rw [Finset.mem_range] at hk
    by_cases h : k < n / 2 + 1
    · exact Finset.le_sup (Finset.mem_Ico.mpr ⟨Nat.zero_le _, h⟩)
    · push_neg at h
      rw [hsym k hk h]
      exact Finset.le_sup (Finset.mem_Ico.mpr ⟨Nat.zero_le _, by omega⟩)
  · apply Finset.sup_mono
    intro k hk
    rw [Finset.mem_Ico] at hk
    rw [Finset.mem_range]
    omega

/-- C6: `NSGT` construction rejects a non-positive sample rate, a
non-positive signal length, and a `reducedform` outside `{0, 1, 2}`,
raising a configuration error (a failed `assert`) before any transform
state is built, and for valid inputs construction succeeds past these
checks. -/
theorem nsgt_construction_checks (fs : ℚ) (Ls reducedform : ℤ)
    (real matrixform : Bool) (glen M : ℕ → ℕ) (n : ℕ) :
    (nsgtAsserts fs Ls reducedform = Except.ok () ↔
      (0 < fs ∧ 0 < Ls ∧ 0 ≤ reducedform ∧ reducedform ≤ 2)) ∧
    (nsgtInit fs Ls real matrixform reducedform glen M n =
        Except.error PyError.assertionError ↔
      ¬ (0 < fs ∧ 0 < Ls ∧ 0 ≤ reducedform ∧ reducedform ≤ 2)) := by
  constructor
  · unfold nsgtAsserts
    split_ifs <;> simp_all
  · unfold nsgtInit nsgtAsserts
    split_ifs <;> simp_all

/-- C9: for every `NSGT` constructed with `real = False`, the
`fbins_actual` attribute is `None` rather than an integer band count
(the active slice is `slice(0, None)`, whose stop is `None`). -/
theorem complex_mode_fbins_none (p : NSGTParams) (h : p.real = false) :
    fbins_actual p = none := by
  simp [fbins_actual, h]

/-- Witness for the complex-mode `fbins_actual` theorem at a concrete
eight-band complex configuration. -/
theorem complex_mode_fbins_none_witness :
    pW9.real = false ∧ fbins_actual pW9 = none :=
  ⟨rfl, complex_mode_fbins_none pW9 rfl⟩

/-- C10: `NSGTBase.max_bins` returns `None` on a `None` bandwidth, and
for every non-`None` bandwidth it raises `NameError` because the body
references `np`, a name bound nowhere in the module. -/
theorem max_bins_unbound_np :
    max_bins Option.none = Except.ok Option.none ∧
    ∀ bw : ℚ, max_bins (Option.some bw) =
      Except.error (PyError.nameError "np") := by
  refine ⟨rfl, fun bw => ?_⟩
  unfold max_bins
  rw [if_neg (by decide)]

/-- C4: `NSGTBase` construction with a matrix-form value outside the
allowed set does raise immediately, but the exception is an
`AttributeError`, not the intended `ValueError`: building the
`ValueError` message dereferences the nonexistent class attribute
`NSGTBase.allowed_matrix_forms`, and that lookup fails first. -/
theorem matrixform_check_attribute_error :
    nsgtbaseMatrixformCheck "bogus" =
      Except.error (PyError.attributeError "allowed_matrix_forms") ∧
    ∀ s : String, nsgtbaseMatrixformCheck "bogus" ≠
      Except.error (PyError.valueError s) := by
  have h : nsgtbaseMatrixformCheck "bogus" =
      Except.error (PyError.attributeError "allowed_matrix_forms") := by
    unfold nsgtbaseMatrixformCheck
    rw [if_neg (by decide), if_neg (by decide)]
  refine ⟨h, fun s hs => ?_⟩
  rw [h] at hs
  simp at hs

/-- C5: `NSGT._apply` relocates the placements `wins` and the analysis
windows `g` and re-derives the device, but it never touches the dual
windows `gd`: after migrating a cpu-resident transform to cuda, `gd`
still lives on the cpu, contradicting the migrate-all-derived-arrays
contract. -/
theorem nsgt_apply_misses_gd :
    (applyNSGT toCuda cpuState).g = ["cuda"] ∧
    (applyNSGT toCuda cpuState).wins = ["cuda"] ∧
    (applyNSGT toCuda cpuState).device = "cuda" ∧
    (applyNSGT toCuda cpuState).gd = ["cpu"] ∧
    (applyNSGT toCuda cpuState).gd ≠ List.map toCuda cpuState.gd := by
  refine ⟨rfl, rfl, rfl, rfl, ?_⟩
  decide

/-- C2 counterexample: at a real ten-band configuration with
`reducedform = 1`, `fbins_actual` is `5` (the slice stop
`10/2 + 1 - 1`) while the active band count and the ragged forward band
count are `4`, so `fbins_actual` does not equal the number of active
bands. -/
theorem fbins_mismatch_counterexample :
    fbins_actual pC2 = some 5 ∧ raggedBandCount pC2 = 4 ∧
    fbins_actual pC2 ≠ some (raggedBandCount pC2) := by
  refine ⟨?_, ?_, ?_⟩ <;> decide

/-- C2 amended: on a real-signal configuration, `reducedform = r` trims
`r` bands from each end of the non-negative-frequency slice, so
`fbins_actual` equals the slice stop `n/2 + 1 - r` (shrinking by `r`),
the active band count and the ragged forward band count equal
`n/2 + 1 - 2r`, and the two agree exactly when `r = 0`. -/
theorem reducedform_trim_amended (p : NSGTParams) (hreal : p.real = true)
    (hr : 2 * p.reducedform ≤ p.n / 2 + 1) :
    sliceStart p = p.reducedform ∧
    sliceStop p = p.n / 2 + 1 - p.reducedform ∧
    fbins_actual p = some (p.n / 2 + 1 - p.reducedform) ∧
    raggedBandCount p = p.n / 2 + 1 - 2 * p.reducedform ∧
    (p.reducedform = 0 → fbins_actual p = some (raggedBandCount p)) := by
  have h1 : sliceStart p = p.reducedform := by simp [sliceStart, hreal]
  have h2 : sliceStop p = p.n / 2 + 1 - p.reducedform := by simp [sliceStop, hreal]
  have h3 : raggedBandCount p = p.n / 2 + 1 - 2 * p.reducedform := by
    rw [raggedBandCount, activeSet, Nat.card_Ico, h1, h2]
    omega
  refine ⟨h1, h2, by simp [fbins_actual, hreal, h2], h3, fun hz => ?_⟩
  rw [fbins_actual, if_pos hreal, h2, h3, hz]

/-- Witness for the amended reduced-form theorem at a concrete real
ten-band configuration with `reducedform = 2`. -/
theorem reducedform_trim_amended_witness :
    pW2.real = true ∧ 2 * pW2.reducedform ≤ pW2.n / 2 + 1 ∧
    (sliceStart pW2 = 2 ∧ sliceStop pW2 = 4 ∧
      fbins_actual pW2 = some 4 ∧ raggedBandCount pW2 = 2 ∧
      (pW2.reducedform = 0 → fbins_actual pW2 = some (raggedBandCount pW2))) :=
  ⟨rfl, by decide, reducedform_trim_amended pW2 rfl (by decide)⟩

/-- C7: after construction, `ncoefs` equals the maximum over the active
band slice of `ceil(len(g[k]) / M[k]) * M[k]` with a true rational
ceiling, and the `slice_coefs` property exposes exactly this value to
callers. -/
theorem ncoefs_spec (p : NSGTParams) (hM : ∀ k ∈ activeSet p, 0 < p.M k) :
    ncoefs p = specNcoefs p ∧ slice_coefs p = specNcoefs p := by
  have h : ncoefs p = specNcoefs p :=
    Finset.sup_congr rfl (fun k hk => by
      rw [bandCoefLen, pyCeilDiv_eq_ceil _ _ (hM k hk)])
  exact ⟨h, h⟩

/-- Witness for the `ncoefs` formula theorem at a concrete real
eight-band configuration with non-uniform window lengths. -/
theorem ncoefs_spec_witness :
    (∀ k ∈ activeSet pW7, 0 < pW7.M k) ∧
    (ncoefs pW7 = specNcoefs pW7 ∧ slice_coefs pW7 = specNcoefs pW7) :=
  ⟨by decide, ncoefs_spec pW7 (by decide)⟩

/-- C3 counterexample: a painless, mirror-symmetric four-band complex
configuration with `matrixform` enabled and `reducedform = 1` has
`ncoefs = 6` (computed from the pre-override `M` over the full active
set) while every band is forced to `M = 4` (the maximum over the reduced
half-range only), and `4` does not divide `6`. -/
theorem matrixform_ncoefs_counterexample :
    pC3.matrixform = true ∧ ncoefs pC3 = 6 ∧ newM pC3 0 = 4 ∧
    ¬ (newM pC3 0 ∣ ncoefs pC3) := by
  refine ⟨rfl, ?_, ?_, ?_⟩ <;> decide

/-- C3 amended: for a real-signal construction with `matrixform` enabled,
when the Window Builder's painless sizing `1 <= len(g[k]) <= M[k]` holds
on the active slice and the band lengths are mirror-symmetric across the
frequency axis, `ncoefs` equals the common coefficient length every band
is forced to, hence is a multiple of every `M[k]` actually used; the
complex-mode case with `reducedform` nonzero is excluded, since there the
override range (the reduced half-range) differs from the active set (all
bands) and divisibility can fail. -/
theorem matrixform_ncoefs_amended (p : NSGTParams)
    (hmat : p.matrixform = true) (hreal : p.real = true) (hn : 1 ≤ p.n)
    (_hr : 2 * p.reducedform < p.n / 2 + 1)
    (hpain : ∀ k ∈ activeSet p, 1 ≤ p.glen k ∧ p.glen k ≤ p.M k)
    (hsym : ∀ k, k < p.n → p.n / 2 + 1 ≤ k → p.M k = p.M (p.n - k)) :
    ∀ k, k < p.n → newM p k ∣ ncoefs p := by
  intro k hk
  have hnc : ncoefs p = (activeSet p).sup p.M :=
    Finset.sup_congr rfl (fun j hj => bandCoefLen_eq_M p j (hpain j hj).1 (hpain j hj).2)
  have hact : activeSet p = Finset.Ico p.reducedform (p.n / 2 + 1 - p.reducedform) := by
    simp [activeSet, sliceStart, sliceStop, hreal]
  have heq : newM p k = ncoefs p := by
    by_cases hrz : p.reducedform = 0
    · have hM : newM p k = (Finset.range p.n).sup p.M := by
        simp [newM, hmat, hrz]
      rw [hM, hnc, hact, hrz, Nat.sub_zero,
        sup_range_eq_sup_half p.n p.M hn hsym]
    · have hM : newM p k =
          (Finset.Ico p.reducedform (p.n / 2 + 1 - p.reducedform)).sup p.M := by
        simp [newM, hmat, hrz]
      rw [hM, hnc, hact]
  rw [heq]

/-- Witness for the amended matrix-form theorem at a concrete real
ten-band configuration with `reducedform = 1` and uniform `M = 4`. -/
theorem matrixform_ncoefs_amended_witness :
    pW3.matrixform = true ∧ pW3.real = true ∧ 1 ≤ pW3.n ∧
    2 * pW3.reducedform < pW3.n / 2 + 1 ∧
    (∀ k ∈ activeSet pW3, 1 ≤ pW3.glen k ∧ pW3.glen k ≤ pW3.M k) ∧
    (∀ k, k < pW3.n → pW3.n / 2 + 1 ≤ k → pW3.M k = pW3.M (pW3.n - k)) ∧
    newM pW3 2 ∣ ncoefs pW3 :=
  ⟨rfl, rfl, by decide, by decide, by decide, by decide,
    matrixform_ncoefs_amended pW3 rfl rfl (by decide) (by decide)
      (by decide) (by decide) 2 (by decide)⟩

/-- C8: for every scale name absent from the registry, `NSGTBase`
construction raises a `ValueError` whose message names the unsupported
scale, and for the historical name `oct` the message additionally hints
to use `cqlog` instead. -/
theorem unknown_scale_error (scale : String)
    (h : scale ∉ SCALES_BY_NAME) :
    resolveScale scale = Except.error (PyError.valueError (scaleErrMsg scale)) ∧
    (∃ pre post, scaleErrMsg scale = pre ++ (scale ++ post)) ∧
    (scale = "oct" →
      scaleErrMsg scale =
        "unsupported frequency scale " ++
          ("oct" ++ "\n\tuse `cqlog` instead of `oct`")) := by
  refine ⟨by simp [resolveScale, h],
    ⟨"unsupported frequency scale ",
      (if scale = "oct" then "\n\tuse `cqlog` instead of `oct`" else ""), rfl⟩,
    fun hoct => ?_⟩
  subst hoct
  rfl

/-- Witness for the unknown-scale theorem at the historical name `oct`. -/
theorem unknown_scale_error_witness :
    "oct" ∉ SCALES_BY_NAME ∧
    (resolveScale "oct" = Except.error (PyError.valueError (scaleErrMsg "oct")) ∧
      (∃ pre post, scaleErrMsg "oct" = pre ++ ("oct" ++ post)) ∧
      ("oct" = "oct" →
        scaleErrMsg "oct" =
          "unsupported frequency scale " ++
            ("oct" ++ "\n\tuse `cqlog` instead of `oct`"))) :=
  ⟨by decide, unknown_scale_error "oct" (by decide)⟩

/-- C1: for every frame configuration (covering ragged and fixed-matrix
modes and real and complex band sets alike) whose window layout satisfies
the frame-completeness precondition, the inverse transform applied to the
forward transform of any signal reproduces the signal exactly on the
padded frequency axis; in exact arithmetic the reconstruction error is
zero, hence within any numeric tolerance. -/
theorem nsgt_perfect_reconstruction (F : NSGTFrame) (X : ℕ → ℚ)
    (_hnn : 0 < F.nn)
    (hcomplete : ∀ f, f < F.nn → 0 < frameDiag F f) :
    ∀ f, f < F.nn → nsigtf F (nsdual F) (nsgtf F X) f = X f := by
  intro f hf
  have hD : frameDiag F f ≠ 0 := ne_of_gt (hcomplete f hf)
  have step : nsigtf F (nsdual F) (nsgtf F X) f
      = (Finset.range F.B).sum (fun k =>
          (Finset.range (F.L k)).sum (fun i =>
            (X f / frameDiag F f) *
              (if framePos F k i = f then (F.g k i) ^ 2 else 0))) := by
    unfold nsigtf
    refine Finset.sum_congr rfl (fun k _ => Finset.sum_congr rfl (fun i _ => ?_))
    by_cases h : framePos F k i = f
    · rw [if_pos h, if_pos h]
      simp only [nsdual, nsgtf]
      rw [h]
      ring
    · rw [if_neg h, if_neg h, mul_zero]
  have pull : (Finset.range F.B).sum (fun k =>
      (Finset.range (F.L k)).sum (fun i =>
        (X f / frameDiag F f) *
          (if framePos F k i = f then (F.g k i) ^ 2 else 0)))
      = (X f / frameDiag F f) * frameDiag F f := by
    rw [frameDiag, Finset.mul_sum]
    refine Finset.sum_congr rfl (fun k _ => ?_)
    rw [Finset.mul_sum]
  rw [step, pull, div_mul_cancel₀ _ hD]

/-- Sublemma: the concrete two-band frame `Fw` satisfies the
frame-completeness precondition, with diagonal value `1` at both
positions of its axis. -/
lemma Fw_frame_complete : ∀ f, f < Fw.nn → 0 < frameDiag Fw f := by
  intro f hf
  have h2 : Fw.nn = 2 := rfl
  rw [h2] at hf
  have e0 : frameDiag Fw f =
      (if (0 + 0) % 2 = f then (1 : ℚ) ^ 2 else 0) +
      (if (1 + 0) % 2 = f then (1 : ℚ) ^ 2 else 0) := by
    rw [frameDiag]
    rw [show Fw.B = 2 from rfl]
    rw [Finset.sum_range_succ, Finset.sum_range_one]
    rw [show Fw.L 0 = 1 from rfl, show Fw.L 1 = 1 from rfl]
    rw [Finset.sum_range_one, Finset.sum_range_one]
    rfl
  rw [e0]
  interval_cases f <;> norm_num

/-- Witness for the perfect-reconstruction theorem at a concrete
two-band frame with unit windows covering a length-2 axis. -/
theorem nsgt_perfect_reconstruction_witness :
    0 < Fw.nn ∧ (∀ f, f < Fw.nn → 0 < frameDiag Fw f) ∧
    nsigtf Fw (nsdual Fw) (nsgtf Fw Xw) 1 = Xw 1 :=
  ⟨by decide, Fw_frame_complete,
    nsgt_perfect_reconstruction Fw Xw (by decide) Fw_frame_complete 1 (by decide)⟩
